import Mathlib

/-!
# Verification of the bubble-shooter core (src/json_printer/script.js)

Shallow embedding of the hexagonal-grid bubble shooter: grid/geometry,
flood-fill match resolution, floating-cluster cleanup, projectile physics
and the event-driven game loop.  JS numbers are modelled as `ℝ` for pixel
geometry and as `ℤ`/`ℕ` for grid indices and scores.

Modelling conventions, each noted again at the relevant definition:
* A JS array row that is a "hole" (`undefined`) is observationally
  equivalent to a row of `null`s for every reader in the script (all reads
  are guarded by `if (!row) continue` or preceded by `ensureRow`), so the
  grid is a `List (List (Option Bubble))` with holes represented by `[]`.
* `ensureRow` only materialises rows filled with `null`; since absent rows
  already read as empty, it is folded into the single writing helper
  `setCell` and omitted from pure read paths.
* JS `Set` objects keyed by the string `"row,col"` are modelled as lists of
  integer pairs (the key function is injective on integer pairs).
* `while` loops over a worklist are modelled with an explicit fuel that is
  provably (for the DFS) or generously (for the BFS) sufficient; both loops
  stop as soon as the worklist empties, independently of remaining fuel.
-/

namespace Chung

/-- `const COLUMNS = 14`. -/
def COLUMNS : ℤ := 14

/-- One occupied grid cell: `{row, col, x, y, color}` (`makeGridBubble`). -/
structure Bubble where
  row : ℤ
  col : ℤ
  x : ℝ
  y : ℝ
  color : String

/-- The sparse occupancy table `grid`: rows of optional bubbles.  A hole row
(`undefined` in JS) is represented by `[]`, which reads identically. -/
abbrev Grid := List (List (Option Bubble))

/-- `getBubble(row, col)`: `null` outside `0 ≤ row < grid.length`,
`0 ≤ col < COLUMNS`, otherwise the stored cell.  The source's `ensureRow`
call only materialises a `null`-filled row, which reads the same as the
`getD` defaults used here. -/
def getBubble (g : Grid) (row col : ℤ) : Option Bubble :=
  if row < 0 ∨ col < 0 ∨ (g.length : ℤ) ≤ row ∨ COLUMNS ≤ col then none
  else (g.getD row.toNat []).getD col.toNat none

/-- A cell is occupied when `getBubble` finds a bubble there. -/
def occupied (g : Grid) (p : ℤ × ℤ) : Bool :=
  (getBubble g p.1 p.2).isSome

/-- `offsetsEven` from `getNeighbors`. -/
def offsetsEven : List (ℤ × ℤ) :=
  [(-1, 0), (-1, -1), (0, -1), (0, 1), (1, 0), (1, -1)]

/-- `offsetsOdd` from `getNeighbors`. -/
def offsetsOdd : List (ℤ × ℤ) :=
  [(-1, 0), (-1, 1), (0, -1), (0, 1), (1, 0), (1, 1)]

/-- `getNeighbors(row, col)`: parity-dependent offsets, dropping cells with
`nr < 0`, `nc < 0` or `nc >= COLUMNS` (the JS truthiness test `row % 2`
selects the odd table exactly when `row % 2 ≠ 0`).  The `ensureRow` call in
the loop only materialises empty rows and is omitted (see header). -/
def getNeighbors (row col : ℤ) : List (ℤ × ℤ) :=
  (if row % 2 = 0 then offsetsEven else offsetsOdd).filterMap fun o =>
    let nr := row + o.1
    let nc := col + o.2
    if nr < 0 ∨ nc < 0 ∨ COLUMNS ≤ nc then none else some (nr, nc)

lemma getNeighbors_length_le (row col : ℤ) :
    (getNeighbors row col).length ≤ 6 := by
  unfold getNeighbors
  refine le_trans (List.length_filterMap_le _ _) ?_
  split <;> simp [offsetsEven, offsetsOdd]

lemma offsets_small {o : ℤ × ℤ} (h : o ∈ offsetsEven ∨ o ∈ offsetsOdd) :
    -1 ≤ o.1 ∧ o.1 ≤ 1 ∧ -1 ≤ o.2 ∧ o.2 ≤ 1 := by
  simp only [offsetsEven, offsetsOdd, List.mem_cons, List.not_mem_nil,
    or_false] at h
  rcases h with h | h <;>
    rcases h with h | h | h | h | h | h <;> subst h <;> simp

lemma mem_getNeighbors {row col : ℤ} {p : ℤ × ℤ}
    (h : p ∈ getNeighbors row col) :
    0 ≤ p.1 ∧ 0 ≤ p.2 ∧ p.2 < COLUMNS ∧
      row - 1 ≤ p.1 ∧ p.1 ≤ row + 1 ∧ col - 1 ≤ p.2 ∧ p.2 ≤ col + 1 := by
  unfold getNeighbors at h
  rw [List.mem_filterMap] at h
  obtain ⟨o, ho, hfo⟩ := h
  have hsmall : -1 ≤ o.1 ∧ o.1 ≤ 1 ∧ -1 ≤ o.2 ∧ o.2 ≤ 1 := by
    refine offsets_small ?_
    split at ho
    · exact Or.inl ho
    · exact Or.inr ho
  dsimp only at hfo
  split at hfo
  · exact absurd hfo (by simp)
  · next hcond =>
    rw [Option.some_inj] at hfo
    subst hfo
    push_neg at hcond
    refine ⟨hcond.1, hcond.2.1, hcond.2.2, ?_, ?_, ?_, ?_⟩ <;> simp <;> omega

lemma getBubble_isSome_bounds {g : Grid} {row col : ℤ}
    (h : (getBubble g row col).isSome) :
    0 ≤ row ∧ (row : ℤ) < g.length ∧ 0 ≤ col ∧ col < COLUMNS := by
  unfold getBubble at h
  split at h
  · simp at h
  · omega

lemma COLUMNS_eq : COLUMNS = 14 := rfl

/-- C10 helper: the out-of-range guard of `getBubble`. -/
lemma getBubble_out_of_range {g : Grid} {row col : ℤ}
    (h : row < 0 ∨ col < 0 ∨ col ≥ COLUMNS ∨ (g.length : ℤ) ≤ row) :
    getBubble g row col = none := by
  unfold getBubble
  rw [if_pos]
  tauto

/-- **C5.** For `row ≥ 0` and any `col`, `getNeighbors` returns exactly the
even-row offset set `{(-1,0),(-1,-1),(0,-1),(0,1),(1,0),(1,-1)}` when `row`
is even and the mirrored odd-row set
`{(-1,0),(-1,1),(0,-1),(0,1),(1,0),(1,1)}` when `row` is odd, restricted to
cells with a valid column and nonnegative row; it has at most 6 entries,
each with `row ≥ 0` and `0 ≤ col < COLUMNS`. -/
theorem C5_getNeighbors_offsets (row col : ℤ) (h : 0 ≤ row) :
    getNeighbors row col =
      ((if row % 2 = 0 then
          [((-1 : ℤ), (0 : ℤ)), (-1, -1), (0, -1), (0, 1), (1, 0), (1, -1)]
        else
          [((-1 : ℤ), (0 : ℤ)), (-1, 1), (0, -1), (0, 1), (1, 0), (1, 1)]).filterMap
        fun o =>
          if 0 ≤ row + o.1 ∧ 0 ≤ col + o.2 ∧ col + o.2 < COLUMNS then
            some (row + o.1, col + o.2)
          else none) ∧
    (getNeighbors row col).length ≤ 6 ∧
    ∀ p ∈ getNeighbors row col, 0 ≤ p.1 ∧ 0 ≤ p.2 ∧ p.2 < COLUMNS := by
  refine ⟨?_, getNeighbors_length_le row col, fun p hp => ?_⟩
  · unfold getNeighbors
    by_cases hrow : row % 2 = 0 <;>
      simp only [hrow, if_true, if_false, offsetsEven, offsetsOdd] <;>
      refine List.filterMap_congr (fun o _ => ?_) <;>
      · dsimp only
        by_cases hc : 0 ≤ row + o.1 ∧ 0 ≤ col + o.2 ∧ col + o.2 < COLUMNS
        · rw [if_neg (by simp only [COLUMNS_eq] at hc ⊢; omega), if_pos hc]
        · rw [if_pos (by simp only [COLUMNS_eq] at hc ⊢; omega), if_neg hc]
  · have := mem_getNeighbors hp
    tauto

/-- C5 witness: the theorem instantiated at `(row, col) = (0, 0)`. -/
theorem C5_getNeighbors_offsets_witness :
    getNeighbors 0 0 =
      ((if (0 : ℤ) % 2 = 0 then
          [((-1 : ℤ), (0 : ℤ)), (-1, -1), (0, -1), (0, 1), (1, 0), (1, -1)]
        else
          [((-1 : ℤ), (0 : ℤ)), (-1, 1), (0, -1), (0, 1), (1, 0), (1, 1)]).filterMap
        fun o =>
          if 0 ≤ (0 : ℤ) + o.1 ∧ 0 ≤ (0 : ℤ) + o.2 ∧ (0 : ℤ) + o.2 < COLUMNS then
            some ((0 : ℤ) + o.1, (0 : ℤ) + o.2)
          else none) ∧
    (getNeighbors 0 0).length ≤ 6 ∧
    ∀ p ∈ getNeighbors 0 0, 0 ≤ p.1 ∧ 0 ≤ p.2 ∧ p.2 < COLUMNS :=
  C5_getNeighbors_offsets 0 0 (by decide)

/-- **C10.** Cell lookup is total: for every integer pair `(row, col)` with
`row < 0`, `col < 0`, `col ≥ COLUMNS` or `row ≥ grid.length`, `getBubble`
returns `none` instead of failing. -/
theorem C10_getBubble_total (g : Grid) (row col : ℤ)
    (h : row < 0 ∨ col < 0 ∨ col ≥ COLUMNS ∨ (g.length : ℤ) ≤ row) :
    getBubble g row col = none :=
  getBubble_out_of_range h

/-- C10 witness: lookup at row `-1` of the empty grid. -/
theorem C10_getBubble_total_witness : getBubble [] (-1) 0 = none :=
  C10_getBubble_total [] (-1) 0 (by simp)

/-! ## Flood fill (`collectCluster`)

The JS `while (stack.length)` loop is modelled with explicit fuel.  The
loop returns as soon as the stack empties; `clusterFuel` is proved ample
(`clusterLoop_post.drained`), so the model computes exactly what the
unbounded JS loop computes.  The JS array is popped/pushed at its end; the
list head models the array end, so pushing the neighbor list corresponds to
prepending its reverse. -/

/-- Fuel that is provably sufficient for the DFS worklist on `g`. -/
def clusterFuel (g : Grid) : ℕ := 7 * ((g.length + 1) * 14 + 1) + 1

/-- The `while` loop of `collectCluster`: pop a cell; skip it when already
visited; mark it visited; when it holds a bubble of the requested color,
record the bubble and push all hex neighbors.  Returns
`(visited, matched, leftover stack)`. -/
def clusterLoop (g : Grid) (color : String) :
    ℕ → List (ℤ × ℤ) → List (ℤ × ℤ) → List Bubble →
    List (ℤ × ℤ) × List Bubble × List (ℤ × ℤ)
  | _, [], visited, matched => (visited, matched, [])
  | 0, stack, visited, matched => (visited, matched, stack)
  | fuel + 1, current :: rest, visited, matched =>
    if current ∈ visited then clusterLoop g color fuel rest visited matched
    else
      match getBubble g current.1 current.2 with
      | none => clusterLoop g color fuel rest (current :: visited) matched
      | some b =>
        if b.color = color then
          clusterLoop g color fuel
            ((getNeighbors current.1 current.2).reverse ++ rest)
            (current :: visited) (matched ++ [b])
        else clusterLoop g color fuel rest (current :: visited) matched

/-- `collectCluster(row, col, color)`: stack-based flood fill from the seed
cell, with visited-set deduplication. -/
def collectCluster (g : Grid) (row col : ℤ) (color : String) : List Bubble :=
  (clusterLoop g color (clusterFuel g) [(row, col)] [] []).2.1

/-- Universe of cells the DFS can ever touch: the seed plus all cells with
row in `[0, grid.length]` and column in `[0, COLUMNS)`. -/
def Ucells (g : Grid) (seed : ℤ × ℤ) : Finset (ℤ × ℤ) :=
  insert seed (Finset.Icc (0 : ℤ) g.length ×ˢ Finset.Icc (0 : ℤ) 13)

lemma Ucells_card_le (g : Grid) (seed : ℤ × ℤ) :
    (Ucells g seed).card ≤ (g.length + 1) * 14 + 1 := by
  refine le_trans (Finset.card_insert_le _ _) ?_
  have h1 : ((g.length : ℤ) + 1 - 0).toNat = g.length + 1 := by omega
  have h2 : (((13 : ℤ)) + 1 - 0).toNat = 14 := by omega
  rw [Finset.card_product, Int.card_Icc, Int.card_Icc, h1, h2]

lemma seed_mem_Ucells (g : Grid) (seed : ℤ × ℤ) : seed ∈ Ucells g seed :=
  Finset.mem_insert_self _ _

lemma mem_Ucells_of_bounds {g : Grid} {seed p : ℤ × ℤ}
    (h1 : 0 ≤ p.1) (h2 : p.1 ≤ g.length) (h3 : 0 ≤ p.2) (h4 : p.2 < COLUMNS) :
    p ∈ Ucells g seed := by
  refine Finset.mem_insert_of_mem ?_
  rw [Finset.mem_product, Finset.mem_Icc, Finset.mem_Icc]
  simp only [COLUMNS_eq] at h4
  omega

/-- Neighbors of an occupied cell stay inside the universe. -/
lemma neighbor_mem_Ucells {g : Grid} {seed p n : ℤ × ℤ}
    (hp : (getBubble g p.1 p.2).isSome) (hn : n ∈ getNeighbors p.1 p.2) :
    n ∈ Ucells g seed := by
  obtain ⟨h1, h2, h3, h4⟩ := getBubble_isSome_bounds hp
  obtain ⟨n1, n2, n3, n4, n5, n6, n7⟩ := mem_getNeighbors hn
  exact mem_Ucells_of_bounds n1 (by omega) n2 n3

lemma nodup_length_le_card {l : List (ℤ × ℤ)} {s : Finset (ℤ × ℤ)}
    (hnd : l.Nodup) (hsub : ∀ x ∈ l, x ∈ s) : l.length ≤ s.card := by
  calc l.length = l.toFinset.card := (List.toFinset_card_of_nodup hnd).symm
    _ ≤ s.card := Finset.card_le_card fun x hx => hsub x (List.mem_toFinset.mp hx)

/-- What holds of `clusterLoop`'s output `(visited, matched, leftover)` when
it starts from a well-formed worklist state and enough fuel. -/
structure ClusterPost (g : Grid) (color : String) (seed : ℤ × ℤ)
    (out : List (ℤ × ℤ) × List Bubble × List (ℤ × ℤ)) : Prop where
  drained : out.2.2 = []
  found : ∀ b ∈ out.2.1, ∃ p ∈ out.1, getBubble g p.1 p.2 = some b ∧ b.color = color
  complete : ∀ p ∈ out.1, ∀ b, getBubble g p.1 p.2 = some b → b.color = color →
    b ∈ out.2.1
  closed : ∀ p ∈ out.1, ∀ b, getBubble g p.1 p.2 = some b → b.color = color →
    ∀ n ∈ getNeighbors p.1 p.2, n ∈ out.1
  seedIn : seed ∈ out.1

/-- Main DFS lemma: from any worklist state inside the universe whose
potential is below the fuel, the loop drains its stack and its visited set
is color-closed: every visited matching cell is recorded, its neighbors are
visited, and every recorded bubble came from a visited matching cell. -/
lemma clusterLoop_post (g : Grid) (color : String) (seed : ℤ × ℤ) :
    ∀ fuel stack visited matched,
      (∀ p ∈ stack, p ∈ Ucells g seed) →
      (∀ p ∈ visited, p ∈ Ucells g seed) →
      visited.Nodup →
      stack.length + 7 * ((Ucells g seed).card - visited.length) ≤ fuel →
      (∀ p ∈ visited, ∀ b, getBubble g p.1 p.2 = some b → b.color = color →
        b ∈ matched) →
      (∀ p ∈ visited, ∀ b, getBubble g p.1 p.2 = some b → b.color = color →
        ∀ n ∈ getNeighbors p.1 p.2, n ∈ visited ∨ n ∈ stack) →
      (∀ b ∈ matched, ∃ p ∈ visited, getBubble g p.1 p.2 = some b ∧
        b.color = color) →
      (seed ∈ stack ∨ seed ∈ visited) →
      ClusterPost g color seed (clusterLoop g color fuel stack visited matched) := by
  intro fuel
  induction fuel with
  | zero =>
    intro stack visited matched hSU hVU hnd hΦ hJ1 hJ2 hJ3 hJ4
    match stack with
    | [] =>
      rw [clusterLoop]
      exact ⟨rfl, hJ3, hJ1,
        fun p hp b hb hc n hn => (hJ2 p hp b hb hc n hn).resolve_right
          (by simp),
        hJ4.resolve_left (by simp)⟩
    | c :: rest =>
      exfalso
      simp only [List.length_cons] at hΦ
      omega
  | succ fuel ih =>
    intro stack visited matched hSU hVU hnd hΦ hJ1 hJ2 hJ3 hJ4
    match stack with
    | [] =>
      rw [clusterLoop]
      exact ⟨rfl, hJ3, hJ1,
        fun p hp b hb hc n hn => (hJ2 p hp b hb hc n hn).resolve_right
          (by simp),
        hJ4.resolve_left (by simp)⟩
    | current :: rest =>
      have hcU : current ∈ Ucells g seed := hSU current (by simp)
      have hrestU : ∀ p ∈ rest, p ∈ Ucells g seed :=
        fun p hp => hSU p (by simp [hp])
      have hvlen : visited.length ≤ (Ucells g seed).card :=
        nodup_length_le_card hnd hVU
      simp only [List.length_cons] at hΦ
      rw [clusterLoop]
      split
      · next hcv =>
        refine ih rest visited matched hrestU hVU hnd (by omega) hJ1 ?_ hJ3 ?_
        · intro p hp b hb hc n hn
          rcases hJ2 p hp b hb hc n hn with h | h
          · exact Or.inl h
          · rcases List.mem_cons.mp h with h | h
            · exact Or.inl (h ▸ hcv)
            · exact Or.inr h
        · rcases hJ4 with h | h
          · rcases List.mem_cons.mp h with h | h
            · exact Or.inr (h ▸ hcv)
            · exact Or.inl h
          · exact Or.inr h
      · next hcv =>
        have hnd' : (current :: visited).Nodup := List.nodup_cons.mpr ⟨hcv, hnd⟩
        have hVU' : ∀ p ∈ current :: visited, p ∈ Ucells g seed := by
          intro p hp
          rcases List.mem_cons.mp hp with h | h
          · exact h ▸ hcU
          · exact hVU p h
        have hvlen' : (current :: visited).length ≤ (Ucells g seed).card :=
          nodup_length_le_card hnd' hVU'
        simp only [List.length_cons] at hvlen'
        have hJ4' : seed ∈ rest ∨ seed ∈ current :: visited := by
          rcases hJ4 with h | h
          · rcases List.mem_cons.mp h with h | h
            · exact Or.inr (by simp [h])
            · exact Or.inl h
          · exact Or.inr (by simp [h])
        split
        · next hb =>
          refine ih rest (current :: visited) matched hrestU hVU' hnd'
            (by simp only [List.length_cons]; omega) ?_ ?_ ?_ hJ4'
          · intro p hp b hpb hc
            rcases List.mem_cons.mp hp with h | h
            · rw [h] at hpb; rw [hpb] at hb; exact absurd hb (by simp)
            · exact hJ1 p h b hpb hc
          · intro p hp b hpb hc n hn
            rcases List.mem_cons.mp hp with h | h
            · rw [h] at hpb; rw [hpb] at hb; exact absurd hb (by simp)
            · rcases hJ2 p h b hpb hc n hn with h' | h'
              · exact Or.inl (by simp [h'])
              · rcases List.mem_cons.mp h' with h' | h'
                · exact Or.inl (by simp [h'])
                · exact Or.inr h'
          · intro b hbm
            obtain ⟨p, hp, h1, h2⟩ := hJ3 b hbm
            exact ⟨p, by simp [hp], h1, h2⟩
        · next b hb =>
          split
          · next hcol =>
            have hsome : (getBubble g current.1 current.2).isSome := by
              rw [hb]; rfl
            have hnbU : ∀ p ∈ (getNeighbors current.1 current.2).reverse ++ rest,
                p ∈ Ucells g seed := by
              intro p hp
              rcases List.mem_append.mp hp with h | h
              · exact neighbor_mem_Ucells hsome (List.mem_reverse.mp h)
              · exact hrestU p h
            have hlen : ((getNeighbors current.1 current.2).reverse ++ rest).length
                ≤ 6 + rest.length := by
              rw [List.length_append, List.length_reverse]
              have := getNeighbors_length_le current.1 current.2
              omega
            refine ih _ (current :: visited) (matched ++ [b]) hnbU hVU' hnd'
              (by simp only [List.length_cons]; omega) ?_ ?_ ?_
              (by rcases hJ4' with h | h
                  · exact Or.inl (List.mem_append_right _ h)
                  · exact Or.inr h)
            · intro p hp b' hpb hc
              rcases List.mem_cons.mp hp with h | h
              · rw [h] at hpb; rw [hpb] at hb
                rw [Option.some_inj] at hb
                simp [hb]
              · exact List.mem_append_left _ (hJ1 p h b' hpb hc)
            · intro p hp b' hpb hc n hn
              rcases List.mem_cons.mp hp with h | h
              · refine Or.inr (List.mem_append_left _ ?_)
                rw [List.mem_reverse]
                exact h ▸ hn
              · rcases hJ2 p h b' hpb hc n hn with h' | h'
                · exact Or.inl (by simp [h'])
                · rcases List.mem_cons.mp h' with h' | h'
                  · exact Or.inl (by simp [h'])
                  · exact Or.inr (List.mem_append_right _ h')
            · intro b' hbm
              rcases List.mem_append.mp hbm with h | h
              · obtain ⟨p, hp, h1, h2⟩ := hJ3 b' h
                exact ⟨p, by simp [hp], h1, h2⟩
              · rw [List.mem_singleton] at h
                subst h
                exact ⟨current, by simp, hb, hcol⟩
          · next hcol =>
            refine ih rest (current :: visited) matched hrestU hVU' hnd'
              (by simp only [List.length_cons]; omega) ?_ ?_ ?_ hJ4'
            · intro p hp b' hpb hc
              rcases List.mem_cons.mp hp with h | h
              · rw [h] at hpb; rw [hpb] at hb
                rw [Option.some_inj] at hb
                exact absurd (hb ▸ hc) hcol
              · exact hJ1 p h b' hpb hc
            · intro p hp b' hpb hc n hn
              rcases List.mem_cons.mp hp with h | h
              · rw [h] at hpb; rw [hpb] at hb
                rw [Option.some_inj] at hb
                exact absurd (hb ▸ hc) hcol
              · rcases hJ2 p h b' hpb hc n hn with h' | h'
                · exact Or.inl (by simp [h'])
                · rcases List.mem_cons.mp h' with h' | h'
                  · exact Or.inl (by simp [h'])
                  · exact Or.inr h'
            · intro b' hbm
              obtain ⟨p, hp, h1, h2⟩ := hJ3 b' hbm
              exact ⟨p, by simp [hp], h1, h2⟩

/-- The DFS started as `collectCluster` does satisfies the postconditions. -/
lemma collectCluster_post (g : Grid) (row col : ℤ) (color : String) :
    ClusterPost g color (row, col)
      (clusterLoop g color (clusterFuel g) [(row, col)] [] []) := by
  refine clusterLoop_post g color (row, col) (clusterFuel g) [(row, col)] [] []
    ?_ (by simp) (by simp) ?_ (by simp) (by simp) (by simp) (by simp)
  · intro p hp
    rw [List.mem_singleton] at hp
    exact hp ▸ seed_mem_Ucells g (row, col)
  · have := Ucells_card_le g (row, col)
    simp only [List.length_cons, List.length_nil, clusterFuel]
    omega

/-- The grid invariant of §3: a stored bubble's `(row, col)` fields match
its storage location. -/
def WFGrid (g : Grid) : Prop :=
  ∀ r c b, getBubble g r c = some b → b.row = r ∧ b.col = c

/-- **C4.** For a well-formed grid and an occupied seed cell, the flood
fill returns only occupied cells carrying the seed's color, contains the
seed bubble, and is maximal: every same-color occupied hex neighbor of a
member is a member. -/
theorem C4_collectCluster_spec (g : Grid) (row col : ℤ) (origin : Bubble)
    (hWF : WFGrid g) (horig : getBubble g row col = some origin) :
    (∀ b ∈ collectCluster g row col origin.color,
        getBubble g b.row b.col = some b ∧ b.color = origin.color) ∧
    origin ∈ collectCluster g row col origin.color ∧
    (∀ b ∈ collectCluster g row col origin.color,
      ∀ n ∈ getNeighbors b.row b.col, ∀ nb,
        getBubble g n.1 n.2 = some nb → nb.color = origin.color →
          nb ∈ collectCluster g row col origin.color) := by
  have post := collectCluster_post g row col origin.color
  have hmem : ∀ b ∈ collectCluster g row col origin.color,
      getBubble g b.row b.col = some b ∧ b.color = origin.color := by
    intro b hbm
    obtain ⟨p, hp, h1, h2⟩ := post.found b hbm
    obtain ⟨hr, hc⟩ := hWF p.1 p.2 b h1
    exact ⟨by rw [hr, hc]; exact h1, h2⟩
  refine ⟨hmem, ?_, ?_⟩
  · exact post.complete (row, col) post.seedIn origin horig rfl
  · intro b hbm n hn nb hnb hcol
    obtain ⟨p, hp, h1, h2⟩ := post.found b hbm
    obtain ⟨hr, hc⟩ := hWF p.1 p.2 b h1
    have hpn : n ∈ getNeighbors p.1 p.2 := by rw [hr, hc] at hn; exact hn
    have hnv := post.closed p hp b h1 h2 n hpn
    exact post.complete n hnv nb hnb hcol

/-! ## Match resolution (`resolveMatches`, `removeCluster`) -/

/-- `if (grid[bubble.row]) grid[bubble.row][bubble.col] = null`.  Rows out
of range (JS holes are falsy) are skipped.  A JS write to a negative column
is a property write invisible to every array read, so it is modelled as a
no-op via the `0 ≤ c` guard; a write past the row's end likewise never
becomes readable (`getBubble` caps columns at `COLUMNS`). -/
def setNull (g : Grid) (r c : ℤ) : Grid :=
  if 0 ≤ r ∧ r < (g.length : ℤ) ∧ 0 ≤ c then
    g.set r.toNat ((g.getD r.toNat []).set c.toNat none)
  else g

/-- `removeCluster(cluster)`: null out each bubble's cell. -/
def removeCluster (g : Grid) (cluster : List Bubble) : Grid :=
  cluster.foldl (fun acc b => setNull acc b.row b.col) g

lemma length_setNull (g : Grid) (r c : ℤ) : (setNull g r c).length = g.length := by
  unfold setNull
  split
  · exact List.length_set ..
  · rfl

lemma getD_set_same {α : Type} (l : List α) (i : ℕ) (a d : α)
    (h : i < l.length) : (l.set i a).getD i d = a := by
  rw [List.getD_eq_getElem _ _ (by rwa [List.length_set]), List.getElem_set_self]

lemma getD_set_other {α : Type} (l : List α) (i j : ℕ) (a d : α)
    (h : i ≠ j) : (l.set i a).getD j d = l.getD j d := by
  by_cases hj : j < l.length
  · rw [List.getD_eq_getElem _ _ (by rwa [List.length_set]),
      List.getD_eq_getElem _ _ hj, List.getElem_set_ne h]
  · rw [List.getD_eq_default _ _ (by rw [List.length_set]; omega),
      List.getD_eq_default _ _ (by omega)]

lemma getBubble_setNull_self (g : Grid) (r c : ℤ) :
    getBubble (setNull g r c) r c = none := by
  unfold setNull
  split
  · next hg =>
    obtain ⟨hr0, hrl, hc0⟩ := hg
    by_cases h4 : COLUMNS ≤ c
    · exact getBubble_out_of_range (Or.inr (Or.inr (Or.inl h4)))
    · push_neg at h4
      unfold getBubble
      rw [List.length_set]
      rw [if_neg (by push_neg; exact ⟨hr0, hc0, hrl, h4⟩)]
      rw [getD_set_same _ _ _ _ (by omega)]
      by_cases hc : c.toNat < (g.getD r.toNat []).length
      · rw [getD_set_same _ _ _ _ hc]
      · rw [List.getD_eq_default _ _ (by rw [List.length_set]; omega)]
  · next hg =>
    refine getBubble_out_of_range ?_
    rcases not_and_or.mp hg with h | h
    · exact Or.inl (by omega)
    · rcases not_and_or.mp h with h | h
      · exact Or.inr (Or.inr (Or.inr (by omega)))
      · exact Or.inr (Or.inl (by omega))

lemma getBubble_setNull_ne (g : Grid) (r c p q : ℤ) (h : ¬(r = p ∧ c = q)) :
    getBubble (setNull g r c) p q = getBubble g p q := by
  unfold setNull
  split
  · next hg =>
    obtain ⟨hr0, hrl, hc0⟩ := hg
    unfold getBubble
    rw [List.length_set]
    by_cases hout : p < 0 ∨ q < 0 ∨ ((g.length : ℕ) : ℤ) ≤ p ∨ COLUMNS ≤ q
    · rw [if_pos hout, if_pos hout]
    · push_neg at hout
      obtain ⟨h1, h2, h3, h4⟩ := hout
      rw [if_neg (by push_neg; exact ⟨h1, h2, h3, h4⟩),
        if_neg (by push_neg; exact ⟨h1, h2, h3, h4⟩)]
      by_cases hpr : p = r
      · subst hpr
        have hqc : q ≠ c := fun hqc => h ⟨rfl, hqc.symm⟩
        rw [getD_set_same _ _ _ _ (by omega),
          getD_set_other _ _ _ _ _ (by omega)]
      · rw [getD_set_other _ _ _ _ _ (by omega)]
  · rfl

/-- Exact effect of `removeCluster`: a cell is cleared iff some cluster
bubble addresses it; all other cells are untouched. -/
lemma getBubble_removeCluster (g : Grid) (cl : List Bubble) (p q : ℤ) :
    getBubble (removeCluster g cl) p q =
      if ∃ b ∈ cl, b.row = p ∧ b.col = q then none else getBubble g p q := by
  induction cl generalizing g with
  | nil => simp [removeCluster]
  | cons b cl ih =>
    have hstep : removeCluster g (b :: cl) =
        removeCluster (setNull g b.row b.col) cl := rfl
    rw [hstep, ih]
    by_cases hcl : ∃ b' ∈ cl, b'.row = p ∧ b'.col = q
    · rw [if_pos hcl, if_pos (by obtain ⟨b', hb', h'⟩ := hcl; exact ⟨b', by simp [hb'], h'⟩)]
    · rw [if_neg hcl]
      by_cases hb : b.row = p ∧ b.col = q
      · rw [if_pos ⟨b, by simp, hb⟩, hb.1, hb.2]
        exact getBubble_setNull_self ..
      · rw [if_neg (by
          rintro ⟨b', hb', h'⟩
          rcases List.mem_cons.mp hb' with h'' | h''
          · exact hb (h'' ▸ h')
          · exact hcl ⟨b', h'', h'⟩)]
        exact getBubble_setNull_ne _ _ _ _ _ hb

/-- `resolveMatches(row, col)`: read the landing cell, flood-fill its
cluster, and when the cluster has at least 3 cells remove it and add
`cluster.length * 100` to the score. -/
def resolveMatches (g : Grid) (score : ℕ) (row col : ℤ) : Grid × ℕ :=
  match getBubble g row col with
  | none => (g, score)
  | some origin =>
    if 3 ≤ (collectCluster g row col origin.color).length then
      (removeCluster g (collectCluster g row col origin.color),
       score + (collectCluster g row col origin.color).length * 100)
    else (g, score)

/-! ## Floating-cluster cleanup (`checkForFloating`)

Breadth-first search from the occupied row-0 cells; the JS `Set`s `visited`
and `connected` are lists of integer pairs, `queue.shift` is the list head
and `queue.push` appends.  The `while` loop gets generous fuel; the
invariant proved below (`floatLoop_connected`) holds for every fuel value,
and the loop stops by itself once the queue drains. -/

/-- One neighbor inspection of the BFS inner `for` loop, acting on the
state `(visited, connected, queue)`. -/
def floatVisit (g : Grid) (st : List (ℤ × ℤ) × List (ℤ × ℤ) × List (ℤ × ℤ))
    (n : ℤ × ℤ) : List (ℤ × ℤ) × List (ℤ × ℤ) × List (ℤ × ℤ) :=
  if n ∈ st.1 then st
  else
    match getBubble g n.1 n.2 with
    | none => st
    | some _ => (n :: st.1, n :: st.2.1, st.2.2 ++ [n])

/-- The BFS `while (queue.length)` loop; returns `(visited, connected)`. -/
def floatLoop (g : Grid) :
    ℕ → List (ℤ × ℤ) → List (ℤ × ℤ) → List (ℤ × ℤ) →
    List (ℤ × ℤ) × List (ℤ × ℤ)
  | _, [], visited, connected => (visited, connected)
  | 0, _ :: _, visited, connected => (visited, connected)
  | fuel + 1, current :: rest, visited, connected =>
    let s := (getNeighbors current.1 current.2).foldl (floatVisit g)
      (visited, connected, rest)
    floatLoop g fuel s.2.2 s.1 s.2.1

/-- The occupied row-0 cells seeding queue, visited and connected. -/
def floatSeeds (g : Grid) : List (ℤ × ℤ) :=
  (List.range 14).filterMap fun c =>
    if occupied g (0, (c : ℤ)) then some ((0 : ℤ), (c : ℤ)) else none

/-- Ample fuel for the BFS (one unit per enqueue plus slack). -/
def floatFuel (g : Grid) : ℕ := 8 * ((g.length + 1) * 14 + 1) + 14

/-- The `connected` set when the BFS finishes. -/
def floatConnected (g : Grid) : List (ℤ × ℤ) :=
  (floatLoop g (floatFuel g) (floatSeeds g) (floatSeeds g) (floatSeeds g)).2

/-- The cells scanned by the removal sweep, in scan order. -/
def sweepCells (g : Grid) : List (ℤ × ℤ) :=
  (List.range g.length).flatMap fun (r : ℕ) =>
    (List.range 14).map fun (c : ℕ) => ((r : ℤ), (c : ℤ))

/-- The removal sweep: clear every occupied cell not in `connected`.  The
JS loop writes each cell at most once, so the rebuild below is the same
grid (`ensureRow` materialises rows of length `COLUMNS`). -/
def floatSweep (g : Grid) (connected : List (ℤ × ℤ)) : Grid :=
  (List.range g.length).map fun (r : ℕ) =>
    (List.range 14).map fun (c : ℕ) =>
      match getBubble g (r : ℤ) (c : ℤ) with
      | none => none
      | some b => if ((r : ℤ), (c : ℤ)) ∈ connected then some b else none

/-- The `removed` counter of the sweep. -/
def floatRemoved (g : Grid) (connected : List (ℤ × ℤ)) : ℕ :=
  (sweepCells g).countP fun p => occupied g p && decide (p ∉ connected)

/-- `checkForFloating()`: BFS from the ceiling, sweep away unreached
bubbles, credit `removed * 150` points. -/
def checkForFloating (g : Grid) (score : ℕ) : Grid × ℕ :=
  if g.length = 0 then (g, score)
  else
    (floatSweep g (floatConnected g),
     if floatRemoved g (floatConnected g) ≠ 0 then
       score + floatRemoved g (floatConnected g) * 150
     else score)

/-- Reachability from an occupied ceiling (row-0) cell through occupied
cells along hex adjacency — the "anchored" relation of the spec. -/
inductive Reach (g : Grid) : ℤ × ℤ → Prop
  | seed (c : ℤ) : occupied g (0, c) = true → Reach g (0, c)
  | step (p q : ℤ × ℤ) : Reach g p → q ∈ getNeighbors p.1 p.2 →
      occupied g q = true → Reach g q

/-- Reachability witnessed inside a cell set `S` (all path cells in `S`). -/
inductive GoodPath (g : Grid) (S : List (ℤ × ℤ)) : ℤ × ℤ → Prop
  | seed (c : ℤ) : occupied g (0, c) = true → (0, c) ∈ S → GoodPath g S (0, c)
  | step (p q : ℤ × ℤ) : GoodPath g S p → q ∈ getNeighbors p.1 p.2 →
      occupied g q = true → q ∈ S → GoodPath g S q

lemma goodPath_mono {g : Grid} {S S' : List (ℤ × ℤ)} {p : ℤ × ℤ}
    (hS : ∀ x ∈ S, x ∈ S') (hp : GoodPath g S p) : GoodPath g S' p := by
  induction hp with
  | seed c hocc hmem => exact GoodPath.seed c hocc (hS _ hmem)
  | step p q _ hn hocc hmem ih => exact GoodPath.step p q ih hn hocc (hS _ hmem)

/-- A `GoodPath` in `g` inside `S` transfers to plain reachability in any
grid that keeps the occupied cells of `S`. -/
lemma goodPath_reach {g g' : Grid} {S : List (ℤ × ℤ)} {p : ℤ × ℤ}
    (hS : ∀ q ∈ S, occupied g q = true → occupied g' q = true)
    (hp : GoodPath g S p) : Reach g' p := by
  induction hp with
  | seed c hocc hmem => exact Reach.seed c (hS _ hmem hocc)
  | step p q _ hn hocc hmem ih => exact Reach.step p q ih hn (hS _ hmem hocc)

/-- BFS inner-fold invariant: starting from a state whose `connected`
entries are occupied and `GoodPath`-anchored and whose queue is inside
`connected`, folding `floatVisit` over neighbors of an anchored cell
preserves all of it. -/
lemma floatVisit_foldl_inv (g : Grid) (cur : ℤ × ℤ) :
    ∀ (ns : List (ℤ × ℤ)) (visited connected queue : List (ℤ × ℤ)),
      (∀ n ∈ ns, n ∈ getNeighbors cur.1 cur.2) →
      (∀ p ∈ connected, occupied g p = true ∧ GoodPath g connected p) →
      (∀ p ∈ queue, p ∈ connected) →
      GoodPath g connected cur →
      (∀ p ∈ (ns.foldl (floatVisit g) (visited, connected, queue)).2.1,
          occupied g p = true ∧
          GoodPath g (ns.foldl (floatVisit g) (visited, connected, queue)).2.1 p) ∧
      (∀ p ∈ (ns.foldl (floatVisit g) (visited, connected, queue)).2.2,
          p ∈ (ns.foldl (floatVisit g) (visited, connected, queue)).2.1) ∧
      GoodPath g (ns.foldl (floatVisit g) (visited, connected, queue)).2.1 cur := by
  intro ns
  induction ns with
  | nil =>
    intro visited connected queue _ hconn hq hcur
    exact ⟨hconn, hq, hcur⟩
  | cons n ns ih =>
    intro visited connected queue hns hconn hq hcur
    simp only [List.foldl_cons]
    have hn : n ∈ getNeighbors cur.1 cur.2 := hns n (by simp)
    have hns' : ∀ m ∈ ns, m ∈ getNeighbors cur.1 cur.2 :=
      fun m hm => hns m (by simp [hm])
    unfold floatVisit
    dsimp only
    split
    · exact ih visited connected queue hns' hconn hq hcur
    · next hnv =>
      split
      · exact ih visited connected queue hns' hconn hq hcur
      · next b hb =>
        have hocc : occupied g n = true := by
          unfold occupied
          rw [hb]
          rfl
        have hsub : ∀ x ∈ connected, x ∈ n :: connected := by simp +contextual
        have hcur' : GoodPath g (n :: connected) cur := goodPath_mono hsub hcur
        refine ih (n :: visited) (n :: connected) (queue ++ [n]) hns' ?_ ?_ hcur'
        · intro p hp
          rcases List.mem_cons.mp hp with h | h
          · subst h
            exact ⟨hocc, GoodPath.step cur p hcur' hn hocc (by simp)⟩
          · obtain ⟨h1, h2⟩ := hconn p h
            exact ⟨h1, goodPath_mono hsub h2⟩
        · intro p hp
          rcases List.mem_append.mp hp with h | h
          · exact List.mem_cons_of_mem _ (hq p h)
          · simp only [List.mem_singleton] at h
            simp [h]

/-- BFS loop invariant (any fuel): every cell in the final `connected` set
is occupied and anchored (via cells of that very set) to row 0. -/
lemma floatLoop_connected (g : Grid) :
    ∀ (fuel : ℕ) (queue visited connected : List (ℤ × ℤ)),
      (∀ p ∈ connected, occupied g p = true ∧ GoodPath g connected p) →
      (∀ p ∈ queue, p ∈ connected) →
      ∀ p ∈ (floatLoop g fuel queue visited connected).2,
        occupied g p = true ∧
        GoodPath g (floatLoop g fuel queue visited connected).2 p := by
  intro fuel
  induction fuel with
  | zero =>
    intro queue visited connected hconn _
    match queue with
    | [] => rw [floatLoop]; exact hconn
    | _ :: _ => rw [floatLoop]; exact hconn
  | succ fuel ih =>
    intro queue visited connected hconn hq
    match queue with
    | [] => rw [floatLoop]; exact hconn
    | current :: rest =>
      rw [floatLoop]
      have hcur : GoodPath g connected current := (hconn current (hq current (by simp))).2
      have hrest : ∀ p ∈ rest, p ∈ connected := fun p hp => hq p (by simp [hp])
      obtain ⟨h1, h2, _⟩ := floatVisit_foldl_inv g current
        (getNeighbors current.1 current.2) visited connected rest
        (fun n hn => hn) hconn hrest hcur
      exact ih _ _ _ h1 h2

lemma mem_floatSeeds {g : Grid} {p : ℤ × ℤ} (h : p ∈ floatSeeds g) :
    ∃ c : ℤ, p = (0, c) ∧ occupied g p = true := by
  unfold floatSeeds at h
  rw [List.mem_filterMap] at h
  obtain ⟨c, _, hc⟩ := h
  split at hc
  · next hocc =>
    rw [Option.some_inj] at hc
    exact ⟨(c : ℤ), hc.symm, hc ▸ hocc⟩
  · exact absurd hc (by simp)

/-- Every cell of `floatConnected` is occupied and anchored within it. -/
lemma floatConnected_spec (g : Grid) :
    ∀ p ∈ floatConnected g,
      occupied g p = true ∧ GoodPath g (floatConnected g) p := by
  refine floatLoop_connected g (floatFuel g) (floatSeeds g) (floatSeeds g)
    (floatSeeds g) ?_ (fun p hp => hp)
  intro p hp
  obtain ⟨c, hpc, hocc⟩ := mem_floatSeeds hp
  exact ⟨hocc, hpc ▸ GoodPath.seed c (hpc ▸ hocc) (hpc ▸ hp)⟩

lemma length_floatSweep (g : Grid) (connected : List (ℤ × ℤ)) :
    (floatSweep g connected).length = g.length := by
  simp [floatSweep]

/-- Exact effect of the sweep on each cell. -/
lemma getBubble_floatSweep (g : Grid) (connected : List (ℤ × ℤ)) (p q : ℤ) :
    getBubble (floatSweep g connected) p q =
      if (p, q) ∈ connected then getBubble g p q else none := by
  by_cases hout : p < 0 ∨ q < 0 ∨ ((g.length : ℕ) : ℤ) ≤ p ∨ COLUMNS ≤ q
  · rw [getBubble_out_of_range (by rw [length_floatSweep]; tauto),
      getBubble_out_of_range (by tauto)]
    split <;> rfl
  · push_neg at hout
    obtain ⟨h1, h2, h3, h4⟩ := hout
    have hq14 : q.toNat < 14 := by simp only [COLUMNS_eq] at h4; omega
    have hp' : (p.toNat : ℤ) = p := Int.toNat_of_nonneg h1
    have hq' : (q.toNat : ℤ) = q := Int.toNat_of_nonneg h2
    have hrow : (floatSweep g connected).getD p.toNat [] =
        (List.range 14).map (fun (c : ℕ) =>
          match getBubble g (p.toNat : ℤ) (c : ℤ) with
          | none => none
          | some b =>
            if ((p.toNat : ℤ), (c : ℤ)) ∈ connected then some b else none) := by
      rw [floatSweep]
      rw [List.getD_eq_getElem _ _
        (by rw [List.length_map, List.length_range]; omega)]
      rw [List.getElem_map, List.getElem_range]
    have hcell : getBubble (floatSweep g connected) p q =
        (match getBubble g p q with
          | none => none
          | some b => if (p, q) ∈ connected then some b else none) := by
      conv_lhs => rw [getBubble]
      rw [if_neg (by rw [length_floatSweep]; push_neg; exact ⟨h1, h2, h3, h4⟩)]
      rw [hrow]
      rw [List.getD_eq_getElem _ _
        (by rw [List.length_map, List.length_range]; exact hq14)]
      rw [List.getElem_map, List.getElem_range]
      rw [hp', hq']
    rw [hcell]
    rcases hgb : getBubble g p q with _ | b
    · simp
    · simp

/-- Occupancy after the sweep. -/
lemma occupied_floatSweep (g : Grid) (connected : List (ℤ × ℤ)) (p : ℤ × ℤ) :
    occupied (floatSweep g connected) p =
      (occupied g p && decide (p ∈ connected)) := by
  unfold occupied
  rw [show getBubble (floatSweep g connected) p.1 p.2 =
      if (p.1, p.2) ∈ connected then getBubble g p.1 p.2 else none from
    getBubble_floatSweep ..]
  by_cases hmem : (p.1, p.2) ∈ connected
  · rw [if_pos hmem]
    simp [hmem]
  · rw [if_neg hmem]
    simp [hmem]

/-- **C3.** After `checkForFloating`, every cell still occupied is
reachable from an occupied row-0 cell via hex adjacency through occupied
cells of the resulting grid; no orphaned cell remains. -/
theorem C3_checkForFloating_anchored (g : Grid) (score : ℕ) (p : ℤ × ℤ)
    (h : occupied (checkForFloating g score).1 p = true) :
    Reach (checkForFloating g score).1 p := by
  unfold checkForFloating at h ⊢
  split at h
  · next hlen =>
    rw [if_pos hlen]
    exfalso
    unfold occupied at h
    have hnone : getBubble g p.1 p.2 = none := by
      rcases lt_or_le p.1 0 with hp | hp
      · exact getBubble_out_of_range (Or.inl hp)
      · refine getBubble_out_of_range (Or.inr (Or.inr (Or.inr ?_)))
        rw [hlen]
        exact_mod_cast hp
    rw [hnone] at h
    simp at h
  · next hlen =>
    rw [if_neg hlen]
    dsimp only at h ⊢
    rw [occupied_floatSweep] at h
    rw [Bool.and_eq_true, decide_eq_true_eq] at h
    obtain ⟨hocc, hmem⟩ := h
    have hspec := floatConnected_spec g p hmem
    refine goodPath_reach ?_ hspec.2
    intro q hq hqorig
    rw [occupied_floatSweep]
    simp [hqorig, hq]

/-- The cleanup's score credit equals `150` per cell it removed. -/
lemma checkForFloating_score (g : Grid) (s : ℕ) :
    (checkForFloating g s).2 = s + 150 * ((sweepCells g).countP fun p =>
      occupied g p && !occupied (checkForFloating g s).1 p) := by
  unfold checkForFloating
  split
  · next hlen =>
    simp [sweepCells, hlen]
  · next hlen =>
    dsimp only
    have hcount : ((sweepCells g).countP fun p =>
        occupied g p && !occupied (floatSweep g (floatConnected g)) p) =
        floatRemoved g (floatConnected g) := by
      refine List.countP_congr ?_
      intro p _
      rw [occupied_floatSweep]
      cases hocc : occupied g p <;>
        by_cases hmem : p ∈ floatConnected g <;> simp [hmem]
    rw [hcount]
    split
    · omega
    · next hrem =>
      push_neg at hrem
      omega

/-- **C6.** On landing: a cluster of size ≥ 3 is removed in full — exactly
its cells are cleared — and scores `size × 100`; a smaller cluster changes
nothing; the subsequent cleanup adds `150` per removed cell. -/
theorem C6_match_scoring (g : Grid) (score : ℕ) (row col : ℤ)
    (origin : Bubble) (horig : getBubble g row col = some origin) :
    (3 ≤ (collectCluster g row col origin.color).length →
      resolveMatches g score row col =
        (removeCluster g (collectCluster g row col origin.color),
          score + (collectCluster g row col origin.color).length * 100) ∧
      ∀ p q : ℤ,
        getBubble (removeCluster g (collectCluster g row col origin.color)) p q =
          if ∃ b ∈ collectCluster g row col origin.color, b.row = p ∧ b.col = q
          then none else getBubble g p q) ∧
    ((collectCluster g row col origin.color).length < 3 →
      resolveMatches g score row col = (g, score)) ∧
    (∀ s' : ℕ, (checkForFloating g s').2 =
      s' + 150 * ((sweepCells g).countP fun p =>
        occupied g p && !occupied (checkForFloating g s').1 p)) := by
  refine ⟨fun hlen => ⟨?_, fun p q => getBubble_removeCluster ..⟩,
    fun hlen => ?_, fun s' => checkForFloating_score g s'⟩
  · simp only [resolveMatches, horig]
    rw [if_pos hlen]
  · simp only [resolveMatches, horig]
    rw [if_neg (by omega)]

/-! ## Concrete witness data -/

/-- Witness bubble at cell (0,0) (pixel data as `makeGridBubble` on a
480-wide canvas). -/
def wb0 : Bubble := ⟨0, 0, 32, 96, "#ff6b6b"⟩

/-- Witness bubble at cell (0,1). -/
def wb1 : Bubble := ⟨0, 1, 64, 96, "#ff6b6b"⟩

/-- A single-row witness grid holding a two-bubble red cluster. -/
def wg : Grid :=
  [[some wb0, some wb1, none, none, none, none, none,
    none, none, none, none, none, none, none]]

lemma wg_wf : WFGrid wg := by
  intro r c b h
  have hb := @getBubble_isSome_bounds wg r c (by rw [h]; rfl)
  obtain ⟨h1, h2, h3, h4⟩ := hb
  have hr : r = 0 := by
    have : wg.length = 1 := rfl
    omega
  subst hr
  simp only [COLUMNS_eq] at h4
  interval_cases c <;> simp_all [getBubble, wg, wb0, wb1, COLUMNS_eq] <;>
    (cases h; exact ⟨rfl, rfl⟩)

/-- C4 witness: in the two-red-bubble grid, the flood fill from (0,0)
contains the seed bubble. -/
theorem C4_collectCluster_spec_witness :
    getBubble wg 0 0 = some wb0 ∧ wb0 ∈ collectCluster wg 0 0 wb0.color :=
  ⟨rfl, (C4_collectCluster_spec wg 0 0 wb0 wg_wf rfl).2.1⟩

/-- C3 witness: the surviving cell (0,0) of the witness grid is anchored. -/
theorem C3_checkForFloating_anchored_witness :
    occupied (checkForFloating wg 0).1 (0, 0) = true ∧
      Reach (checkForFloating wg 0).1 (0, 0) :=
  ⟨by decide, C3_checkForFloating_anchored wg 0 (0, 0) (by decide)⟩

/-- C6 witness: the two-bubble cluster is below the match threshold, so
resolution leaves grid and score unchanged. -/
theorem C6_match_scoring_witness :
    getBubble wg 0 0 = some wb0 ∧ resolveMatches wg 0 0 0 = (wg, 0) :=
  ⟨rfl, (C6_match_scoring wg 0 0 0 wb0 rfl).2.1 (by decide)⟩

/-! ## Grid ↔ pixel geometry

JS numbers become `ℝ`.  `CANVAS_WIDTH`/`CANVAS_HEIGHT` come from the host
page and stay parameters `W`/`H`; `VERTICAL_SPACING = √3 · 16` is
irrational, which is what breaks the spec's round-trip claim. -/

noncomputable section

def BUBBLE_RADIUS : ℝ := 16

def BUBBLE_DIAMETER : ℝ := BUBBLE_RADIUS * 2

def VERTICAL_SPACING : ℝ := Real.sqrt 3 * BUBBLE_RADIUS

def TOP_MARGIN : ℝ := 80

/-- `LEFT_OFFSET = (CANVAS_WIDTH - COLUMNS * BUBBLE_DIAMETER) / 2`. -/
def LEFT_OFFSET (W : ℝ) : ℝ := (W - 14 * BUBBLE_DIAMETER) / 2

def SHOOTER_Y (H : ℝ) : ℝ := H - 70

def POINTER_MIN : ℝ := 20 * (Real.pi / 180)

def POINTER_MAX : ℝ := 160 * (Real.pi / 180)

def LAUNCH_SPEED : ℝ := 460

/-- JS `Math.round`: round half toward `+∞`. -/
def jround (x : ℝ) : ℤ := ⌊x + 1 / 2⌋

/-- `clamp(value, min, max) = Math.max(min, Math.min(value, max))`. -/
def clamp (value lo hi : ℝ) : ℝ := max lo (min value hi)

/-- `distance(x1, y1, x2, y2)`. -/
def distance (x1 y1 x2 y2 : ℝ) : ℝ :=
  Real.sqrt ((x1 - x2) ^ 2 + (y1 - y2) ^ 2)

/-- `gridToPixel(row, col)`: odd rows are shifted right one radius. -/
def gridToPixel (W : ℝ) (row col : ℤ) : ℝ × ℝ :=
  (LEFT_OFFSET W + (col : ℝ) * BUBBLE_DIAMETER + BUBBLE_RADIUS +
     (if row % 2 = 0 then 0 else BUBBLE_RADIUS),
   TOP_MARGIN + (row : ℝ) * VERTICAL_SPACING + BUBBLE_RADIUS)

/-- The row computed by `pixelToGrid` (clamped at 0). -/
def pixelRow (y : ℝ) : ℤ := max 0 (jround ((y - TOP_MARGIN) / VERTICAL_SPACING))

/-- `pixelToGrid(x, y)`: the column offset uses the parity of the computed
row; the column is clamped into `[0, COLUMNS - 1]`. -/
def pixelToGrid (W : ℝ) (x y : ℝ) : ℤ × ℤ :=
  (pixelRow y,
   min (max 0 (jround ((x - LEFT_OFFSET W -
       (if pixelRow y % 2 = 0 then 0 else BUBBLE_RADIUS)) / BUBBLE_DIAMETER)))
     (COLUMNS - 1))

end

lemma sqrt3_pos : 0 < Real.sqrt 3 := Real.sqrt_pos.mpr (by norm_num)

lemma sqrt3_lt_two : Real.sqrt 3 < 2 := by
  rw [show (2 : ℝ) = Real.sqrt 4 by
    rw [show (4 : ℝ) = 2 ^ 2 by norm_num, Real.sqrt_sq (by norm_num)]]
  exact Real.sqrt_lt_sqrt (by norm_num) (by norm_num)

lemma one_lt_sqrt3 : 1 < Real.sqrt 3 := by
  rw [show (1 : ℝ) = Real.sqrt 1 by rw [Real.sqrt_one]]
  exact Real.sqrt_lt_sqrt (by norm_num) (by norm_num)

lemma VERTICAL_SPACING_pos : 0 < VERTICAL_SPACING := by
  unfold VERTICAL_SPACING BUBBLE_RADIUS
  positivity

lemma jround_intCast (n : ℤ) : jround (n : ℝ) = n := by
  unfold jround
  rw [Int.floor_int_add]
  norm_num

/-- The off-by-one at the heart of C1: the vertical fraction `16 / (√3·16)`
is `1/√3 ∈ (1/2, 1)`, so `Math.round` lands one row below. -/
lemma jround_row_shift (r : ℤ) : jround ((r : ℝ) + 1 / Real.sqrt 3) = r + 1 := by
  unfold jround
  rw [add_assoc, Int.floor_int_add]
  congr 1
  rw [Int.floor_eq_iff]
  constructor
  · have h2 : (1 : ℝ) / 2 ≤ 1 / Real.sqrt 3 :=
      one_div_le_one_div_of_le sqrt3_pos (le_of_lt sqrt3_lt_two)
    push_cast
    linarith
  · have h1 : (1 : ℝ) / Real.sqrt 3 < 1 := by
      rw [div_lt_one sqrt3_pos]
      exact one_lt_sqrt3
    push_cast
    linarith

lemma gridToPixel_y_frac (W : ℝ) (row col : ℤ) :
    ((gridToPixel W row col).2 - TOP_MARGIN) / VERTICAL_SPACING =
      (row : ℝ) + 1 / Real.sqrt 3 := by
  unfold gridToPixel VERTICAL_SPACING TOP_MARGIN BUBBLE_RADIUS
  have h3 : Real.sqrt 3 ≠ 0 := ne_of_gt sqrt3_pos
  field_simp
  ring

lemma pixelRow_gridToPixel (W : ℝ) (row col : ℤ) (hr : 0 ≤ row) :
    pixelRow (gridToPixel W row col).2 = row + 1 := by
  unfold pixelRow
  rw [gridToPixel_y_frac, jround_row_shift]
  omega

/-- The exact round trip of the code: one row below, and for odd source
rows one column right (clamped). -/
lemma pixelToGrid_gridToPixel (W : ℝ) (row col : ℤ) (hr : 0 ≤ row)
    (hc0 : 0 ≤ col) (hc : col ≤ 13) :
    pixelToGrid W (gridToPixel W row col).1 (gridToPixel W row col).2 =
      (row + 1, if row % 2 = 0 then col else min (col + 1) 13) := by
  unfold pixelToGrid
  rw [pixelRow_gridToPixel W row col hr]
  by_cases hpar : row % 2 = 0
  · have hpar' : ¬ (row + 1) % 2 = 0 := by omega
    have hx : ((gridToPixel W row col).1 - LEFT_OFFSET W -
        (if (row + 1) % 2 = 0 then 0 else BUBBLE_RADIUS)) / BUBBLE_DIAMETER =
        ((col : ℤ) : ℝ) := by
      rw [if_neg hpar']
      unfold gridToPixel
      rw [if_pos hpar]
      unfold BUBBLE_DIAMETER BUBBLE_RADIUS
      field_simp
      ring
    rw [hx, jround_intCast]
    rw [if_pos hpar]
    have h1 : max 0 col = col := max_eq_right hc0
    rw [h1]
    have h2 : min col (COLUMNS - 1) = col := by
      rw [COLUMNS_eq]
      omega
    rw [h2]
  · have hpar' : (row + 1) % 2 = 0 := by omega
    have hx : ((gridToPixel W row col).1 - LEFT_OFFSET W -
        (if (row + 1) % 2 = 0 then 0 else BUBBLE_RADIUS)) / BUBBLE_DIAMETER =
        (((col + 1 : ℤ)) : ℝ) := by
      rw [if_pos hpar']
      unfold gridToPixel
      rw [if_neg hpar]
      unfold BUBBLE_DIAMETER BUBBLE_RADIUS
      push_cast
      field_simp
      ring
    rw [hx, jround_intCast]
    rw [if_neg hpar]
    have h1 : max 0 (col + 1) = col + 1 := max_eq_right (by omega)
    rw [h1]
    rw [COLUMNS_eq]
    norm_num

/-- C1 counterexample: already at `(row, col) = (0, 0)` (canvas width 480)
the round trip returns `(1, 0)`, not `(0, 0)` — `pixelToGrid` rounds
`(y - TOP_MARGIN) / VERTICAL_SPACING = 1/√3 ≈ 0.577` up to the next row. -/
theorem C1_roundtrip_counterexample :
    pixelToGrid 480 (gridToPixel 480 0 0).1 (gridToPixel 480 0 0).2 ≠ (0, 0) := by
  rw [pixelToGrid_gridToPixel 480 0 0 (by norm_num) (by norm_num) (by norm_num)]
  decide

/-- **C1 (amended).** For `row ≥ 0` and `col ∈ [0, COLUMNS-1]`,
`pixelToGrid ∘ gridToPixel` returns the cell one row *below* the input:
`(row + 1, col)` for even rows and `(row + 1, min (col+1) (COLUMNS-1))`
for odd rows — never `(row, col)`. -/
theorem C1_roundTrip_offByOne (W : ℝ) (row col : ℤ) (hr : 0 ≤ row)
    (hc0 : 0 ≤ col) (hc : col ≤ 13) :
    pixelToGrid W (gridToPixel W row col).1 (gridToPixel W row col).2 =
      (row + 1, if row % 2 = 0 then col else min (col + 1) 13) :=
  pixelToGrid_gridToPixel W row col hr hc0 hc

/-- C1 witness: the amended theorem evaluated at `(0, 0)`. -/
theorem C1_roundTrip_offByOne_witness :
    pixelToGrid 480 (gridToPixel 480 0 0).1 (gridToPixel 480 0 0).2 =
      ((0 : ℤ) + 1, if (0 : ℤ) % 2 = 0 then 0 else min (0 + 1) 13) :=
  C1_roundTrip_offByOne 480 0 0 (by norm_num) (by norm_num) (by norm_num)

/-! ## Landing-slot selection (`findClosestSlot`) -/

/-- Increasing integer range `[lo, hi]`, the iteration space of a JS
`for (i = lo; i <= hi; i++)` loop. -/
def intRange (lo hi : ℤ) : List ℤ :=
  (List.range (hi + 1 - lo).toNat).map fun (i : ℕ) => lo + (i : ℤ)

noncomputable section

/-- The 3×3 neighborhood scanned by `findClosestSlot`, in scan order:
rows `max(0, approx.row-1) .. approx.row+1`, columns
`max(0, approx.col-1) .. min(COLUMNS-1, approx.col+1)`. -/
def scanCells (W x y : ℝ) : List (ℤ × ℤ) :=
  (intRange (max 0 ((pixelToGrid W x y).1 - 1))
      ((pixelToGrid W x y).1 + 1)).flatMap fun r =>
    (intRange (max 0 ((pixelToGrid W x y).2 - 1))
        (min (COLUMNS - 1) ((pixelToGrid W x y).2 + 1))).map fun c => (r, c)

/-- Distance from the landing point `(x, y)` to the center of cell `p`
(`distance(center.x, center.y, x, y)`). -/
def slotDist (W x y : ℝ) (p : ℤ × ℤ) : ℝ :=
  distance (gridToPixel W p.1 p.2).1 (gridToPixel W p.1 p.2).2 x y

/-- The scanned cells that are empty, in scan order. -/
def scanEmpties (g : Grid) (W x y : ℝ) : List (ℤ × ℤ) :=
  (scanCells W x y).filter fun p => (getBubble g p.1 p.2).isNone

/-- The `best` accumulator update: skip occupied cells; keep the first
strictly smaller distance (`!best || dist < best.dist`). -/
def slotFold (g : Grid) (W x y : ℝ) (acc : Option ((ℤ × ℤ) × ℝ))
    (p : ℤ × ℤ) : Option ((ℤ × ℤ) × ℝ) :=
  if (getBubble g p.1 p.2).isNone then
    match acc with
    | none => some (p, slotDist W x y p)
    | some b => if slotDist W x y p < b.2 then some (p, slotDist W x y p) else acc
  else acc

/-- `findClosestSlot(x, y)`: nearest empty cell of the 3×3 neighborhood;
otherwise the approximate cell if empty, else its first empty direct
neighbor, else the approximate cell itself. -/
def findClosestSlot (g : Grid) (W : ℝ) (x y : ℝ) : ℤ × ℤ :=
  match (scanCells W x y).foldl (slotFold g W x y) none with
  | some b => b.1
  | none =>
    if (getBubble g (pixelToGrid W x y).1 (pixelToGrid W x y).2).isNone then
      pixelToGrid W x y
    else
      match (getNeighbors (pixelToGrid W x y).1 (pixelToGrid W x y).2).find?
          (fun n => (getBubble g n.1 n.2).isNone) with
      | some n => n
      | none => pixelToGrid W x y

end

/-- If every scanned cell is occupied, the fold finds nothing. -/
lemma slotFold_all_occupied (g : Grid) (W x y : ℝ) :
    ∀ (L : List (ℤ × ℤ)),
      (∀ p ∈ L, (getBubble g p.1 p.2).isNone = false) →
      L.foldl (slotFold g W x y) none = none := by
  intro L
  induction L with
  | nil => intro _; rfl
  | cons p L ih =>
    intro h
    rw [List.foldl_cons]
    have hp : (getBubble g p.1 p.2).isNone = false := h p (by simp)
    rw [show slotFold g W x y none p = none by unfold slotFold; rw [hp]; rfl]
    exact ih fun q hq => h q (by simp [hq])

/-- If the fold finds nothing, the start was `none` and every scanned cell
is occupied. -/
lemma slotFold_none_sound (g : Grid) (W x y : ℝ) :
    ∀ (L : List (ℤ × ℤ)) (acc : Option ((ℤ × ℤ) × ℝ)),
      L.foldl (slotFold g W x y) acc = none →
      acc = none ∧ ∀ p ∈ L, (getBubble g p.1 p.2).isNone = false := by
  intro L
  induction L with
  | nil =>
    intro acc h
    exact ⟨h, by simp⟩
  | cons p L ih =>
    intro acc h
    rw [List.foldl_cons] at h
    obtain ⟨hfold, hrest⟩ := ih (slotFold g W x y acc p) h
    unfold slotFold at hfold
    split at hfold
    · next hemp =>
      exfalso
      cases acc with
      | none =>
        dsimp only at hfold
        exact Option.noConfusion hfold
      | some b =>
        dsimp only at hfold
        split at hfold <;> exact Option.noConfusion hfold
    · next hemp =>
      refine ⟨hfold, ?_⟩
      intro q hq
      rcases List.mem_cons.mp hq with h' | h'
      · subst h'
        exact Bool.eq_false_iff.mpr hemp
      · exact hrest q h'

/-- Provenance: a found best is an empty scanned cell carrying its own
distance, unless it was already the accumulator. -/
lemma slotFold_some_sound (g : Grid) (W x y : ℝ) :
    ∀ (L : List (ℤ × ℤ)) (acc : Option ((ℤ × ℤ) × ℝ)) (b : (ℤ × ℤ) × ℝ),
      L.foldl (slotFold g W x y) acc = some b →
      (b.1 ∈ L ∧ (getBubble g b.1.1 b.1.2).isNone = true ∧
        b.2 = slotDist W x y b.1) ∨ acc = some b := by
  intro L
  induction L with
  | nil =>
    intro acc b h
    exact Or.inr h
  | cons p L ih =>
    intro acc b h
    rw [List.foldl_cons] at h
    rcases ih _ b h with h' | h'
    · exact Or.inl ⟨by simp [h'.1], h'.2⟩
    · unfold slotFold at h'
      split at h'
      · next hemp =>
        cases acc with
        | none =>
          dsimp only at h'
          rw [Option.some_inj] at h'
          exact Or.inl ⟨by simp [← h'], by rw [← h']; exact hemp, by rw [← h']⟩
        | some a =>
          dsimp only at h'
          split at h'
          · rw [Option.some_inj] at h'
            exact Or.inl ⟨by simp [← h'], by rw [← h']; exact hemp, by rw [← h']⟩
          · exact Or.inr h'
      · exact Or.inr h'

/-- Minimality: the found best is no farther than any empty scanned cell
and no worse than the accumulator it started from. -/
lemma slotFold_min (g : Grid) (W x y : ℝ) :
    ∀ (L : List (ℤ × ℤ)) (acc : Option ((ℤ × ℤ) × ℝ)) (b : (ℤ × ℤ) × ℝ),
      L.foldl (slotFold g W x y) acc = some b →
      (∀ p ∈ L, (getBubble g p.1 p.2).isNone = true → b.2 ≤ slotDist W x y p) ∧
      (∀ a, acc = some a → b.2 ≤ a.2) := by
  intro L
  induction L with
  | nil =>
    intro acc b h
    refine ⟨by simp, fun a ha => ?_⟩
    rw [List.foldl_nil] at h
    rw [h] at ha
    rw [Option.some_inj] at ha
    rw [ha]
  | cons p L ih =>
    intro acc b h
    rw [List.foldl_cons] at h
    obtain ⟨ihL, ihacc⟩ := ih _ b h
    constructor
    · intro q hq hqemp
      rcases List.mem_cons.mp hq with h' | h'
      · subst h'
        have hstep := ihacc
        unfold slotFold at hstep
        rw [if_pos hqemp] at hstep
        cases acc with
        | none =>
          dsimp only at hstep
          exact hstep (q, slotDist W x y q) rfl
        | some a =>
          dsimp only at hstep
          by_cases hlt : slotDist W x y q < a.2
          · rw [if_pos hlt] at hstep
            exact hstep (q, slotDist W x y q) rfl
          · rw [if_neg hlt] at hstep
            push_neg at hlt
            exact le_trans (hstep a rfl) hlt
      · exact ihL q h' hqemp
    · intro a ha
      subst ha
      have hstep := ihacc
      unfold slotFold at hstep
      dsimp only at hstep
      by_cases hemp : (getBubble g p.1 p.2).isNone = true
      · rw [if_pos hemp] at hstep
        by_cases hlt : slotDist W x y p < a.2
        · rw [if_pos hlt] at hstep
          exact le_trans (hstep (p, slotDist W x y p) rfl) (le_of_lt hlt)
        · rw [if_neg hlt] at hstep
          exact hstep a rfl
      · rw [if_neg hemp] at hstep
        exact hstep a rfl

/-- **C7.** `findClosestSlot` returns an empty cell of the scanned 3×3
neighborhood at minimal Euclidean distance from the landing point; when the
neighborhood has no empty cell, it falls back to the approximate cell if
empty, else to its first empty direct hex neighbor, else to the (occupied)
approximate cell itself. -/
theorem C7_findClosestSlot_spec (g : Grid) (W x y : ℝ) :
    (scanEmpties g W x y ≠ [] →
      findClosestSlot g W x y ∈ scanEmpties g W x y ∧
      ∀ p ∈ scanEmpties g W x y,
        slotDist W x y (findClosestSlot g W x y) ≤ slotDist W x y p) ∧
    (scanEmpties g W x y = [] →
      findClosestSlot g W x y =
        if (getBubble g (pixelToGrid W x y).1 (pixelToGrid W x y).2).isNone then
          pixelToGrid W x y
        else
          match (getNeighbors (pixelToGrid W x y).1 (pixelToGrid W x y).2).find?
              (fun n => (getBubble g n.1 n.2).isNone) with
          | some n => n
          | none => pixelToGrid W x y) := by
  constructor
  · intro hne
    match hfold : (scanCells W x y).foldl (slotFold g W x y) none with
    | none =>
      exfalso
      obtain ⟨-, hall⟩ := slotFold_none_sound g W x y _ _ hfold
      refine hne (List.filter_eq_nil_iff.mpr ?_)
      intro p hp
      simp [hall p hp]
    | some b =>
      have hres : findClosestSlot g W x y = b.1 := by
        unfold findClosestSlot
        rw [hfold]
      rcases slotFold_some_sound g W x y _ _ b hfold with hprov | hprov
      · obtain ⟨hmem, hemp, hd⟩ := hprov
        obtain ⟨hminL, -⟩ := slotFold_min g W x y _ _ b hfold
        rw [hres]
        constructor
        · rw [scanEmpties, List.mem_filter]
          exact ⟨hmem, hemp⟩
        · intro p hp
          rw [scanEmpties, List.mem_filter] at hp
          rw [← hd]
          exact hminL p hp.1 hp.2
      · exact absurd hprov (by simp)
  · intro hemp
    have hall : ∀ p ∈ scanCells W x y, (getBubble g p.1 p.2).isNone = false := by
      intro p hp
      by_contra hcon
      rw [Bool.not_eq_false] at hcon
      have : p ∈ scanEmpties g W x y := by
        rw [scanEmpties, List.mem_filter]
        exact ⟨hp, hcon⟩
      rw [hemp] at this
      simp at this
    have hfold := slotFold_all_occupied g W x y _ hall
    unfold findClosestSlot
    rw [hfold]

/-- C7 witness: at the landing point over cell (0,0) of the witness grid,
the 3×3 neighborhood has empty cells and the chosen slot is one of them. -/
theorem C7_findClosestSlot_spec_witness :
    scanEmpties wg 480 (gridToPixel 480 0 0).1 (gridToPixel 480 0 0).2 ≠ [] ∧
    findClosestSlot wg 480 (gridToPixel 480 0 0).1 (gridToPixel 480 0 0).2 ∈
      scanEmpties wg 480 (gridToPixel 480 0 0).1 (gridToPixel 480 0 0).2 := by
  have happrox : pixelToGrid 480 (gridToPixel 480 0 0).1 (gridToPixel 480 0 0).2
      = (1, 0) := by
    rw [pixelToGrid_gridToPixel 480 0 0 (by norm_num) (by norm_num) (by norm_num)]
    decide
  have hscan : scanCells 480 (gridToPixel 480 0 0).1 (gridToPixel 480 0 0).2 =
      [(0, 0), (0, 1), (1, 0), (1, 1), (2, 0), (2, 1)] := by
    unfold scanCells
    rw [happrox]
    decide
  have hempties : scanEmpties wg 480 (gridToPixel 480 0 0).1
      (gridToPixel 480 0 0).2 = [(1, 0), (1, 1), (2, 0), (2, 1)] := by
    unfold scanEmpties
    rw [hscan]
    decide
  have hne : scanEmpties wg 480 (gridToPixel 480 0 0).1
      (gridToPixel 480 0 0).2 ≠ [] := by
    rw [hempties]
    simp
  exact ⟨hne, ((C7_findClosestSlot_spec wg 480 _ _).1 hne).1⟩

/-! ## Game state, physics and event handling

JS module-level variables become one `GameState`.  The two canvas
dimensions stay parameters `W`/`H`.  Each `Math.random()` draw is modelled
by an oracle value carried on the event that consumes it; the drawing
functions mutate no state and are omitted. -/

/-- `COLORS`. -/
def COLORS : List String :=
  ["#ff6b6b", "#f7b801", "#8ac926", "#1982c4", "#6a4c93", "#ff9770"]

/-- `"모든 버블 제거!"` (board cleared). -/
def WIN_MSG : String := "모든 버블 제거!"

/-- `"버블이 바닥에 닿았습니다"` (bubble reached the floor). -/
def LOSS_MSG : String := "버블이 바닥에 닿았습니다"

/-- A shooter bubble `{x, y, color, dx, dy, active}`. -/
structure Shooter where
  x : ℝ
  y : ℝ
  color : String
  dx : ℝ
  dy : ℝ
  active : Bool

/-- The in-flight projectile `{x, y, color, dx, dy}`. -/
structure Moving where
  x : ℝ
  y : ℝ
  color : String
  dx : ℝ
  dy : ℝ

/-- The module-level mutable state.  `keys` only ever holds the two arrow
keys, so it is two flags. -/
structure GameState where
  grid : Grid
  pointerAngle : ℝ
  currentBubble : Option Shooter
  nextBubble : Option Shooter
  movingBubble : Option Moving
  keyLeft : Bool
  keyRight : Bool
  lastTime : ℝ
  score : ℕ
  gameOver : Bool
  message : String

/-- All bubbles of the grid in row-major order (the nested
`for (row of grid) for (bubble of row)` iteration). -/
def gridBubbles (g : Grid) : List Bubble :=
  g.flatMap fun row => row.filterMap id

/-- `getColorsInPlay()`: distinct colors in first-seen (Set insertion)
order. -/
def getColorsInPlay (g : Grid) : List String :=
  ((gridBubbles g).map Bubble.color).foldl
    (fun acc c => if c ∈ acc then acc else acc ++ [c]) []

/-- `isBoardEmpty()`. -/
def isBoardEmpty (g : Grid) : Bool :=
  g.all fun row => row.all fun cell => cell.isNone

/-- `hasReachedLimit()`: some bubble's bottom crosses the limit line
`SHOOTER_Y - 20`. -/
def hasReachedLimit (H : ℝ) (g : Grid) : Prop :=
  ∃ b ∈ gridBubbles g, b.y + BUBBLE_RADIUS ≥ SHOOTER_Y H - 20

/-- A hole row materialised by `ensureRow`
(`new Array(COLUMNS).fill(null)`). -/
def fixRow (row : List (Option Bubble)) : List (Option Bubble) :=
  if row.isEmpty then List.replicate 14 none else row

/-- `ensureRow(row); grid[row][col] = bubble`: pad the grid up to `row`
(intermediate JS holes read as empty rows) and write the cell. -/
def setCell (g : Grid) (r c : ℤ) (v : Option Bubble) : Grid :=
  if r < 0 then g
  else if r.toNat < g.length then
    g.set r.toNat ((fixRow (g.getD r.toNat [])).set c.toNat v)
  else
    g ++ List.replicate (r.toNat - g.length) [] ++
      [(List.replicate 14 (none : Option Bubble)).set c.toNat v]

noncomputable section
open Classical

/-- `makeGridBubble(row, col, color)`. -/
def makeGridBubble (W : ℝ) (row col : ℤ) (color : String) : Bubble :=
  { row := row, col := col, x := (gridToPixel W row col).1,
    y := (gridToPixel W row col).2, color := color }

/-- `createShooterBubble()`: color drawn from the colors in play (full
palette when none); the random index is the oracle `orc` mod pool size. -/
def createShooterBubble (W H : ℝ) (g : Grid) (orc : ℕ) : Shooter :=
  { x := W / 2, y := SHOOTER_Y H,
    color :=
      (if (getColorsInPlay g).length ≠ 0 then getColorsInPlay g
       else COLORS).getD
        (orc % (if (getColorsInPlay g).length ≠ 0 then getColorsInPlay g
                else COLORS).length) "",
    dx := 0, dy := 0, active := false }

/-- `snapMovingBubble()`: snap into `findClosestSlot`, resolve matches and
floating clusters, settle the win/loss checks, advance the shooter queue
(`current ← next` repositioned, `next ←` fresh random), drop the
projectile. -/
def snapMovingBubble (W H : ℝ) (orc : ℕ) (s : GameState) (mb : Moving) :
    GameState :=
  let rc := findClosestSlot s.grid W mb.x mb.y
  let g1 := setCell s.grid rc.1 rc.2 (some (makeGridBubble W rc.1 rc.2 mb.color))
  let r2 := resolveMatches g1 s.score rc.1 rc.2
  let r3 := checkForFloating r2.1 r2.2
  let ended : Bool × String :=
    if isBoardEmpty r3.1 then (true, WIN_MSG)
    else if hasReachedLimit H r3.1 then (true, LOSS_MSG)
    else (s.gameOver, s.message)
  { grid := r3.1,
    pointerAngle := s.pointerAngle,
    currentBubble := s.nextBubble.map fun nb =>
      { nb with x := W / 2, y := SHOOTER_Y H, dx := 0, dy := 0, active := false },
    nextBubble := some (createShooterBubble W H r3.1 orc),
    movingBubble := none,
    keyLeft := s.keyLeft, keyRight := s.keyRight,
    lastTime := s.lastTime,
    score := r3.2,
    gameOver := ended.1,
    message := ended.2 }

/-- `updateMovingBubble(delta)`: advance, bounce off the side walls, snap
at the top margin or on contact with a grid bubble, and end the game
(loss) when the projectile passes `CANVAS_HEIGHT - BUBBLE_RADIUS`.  The
source snaps on the first bubble within `BUBBLE_DIAMETER - 2`; the snap
depends only on the projectile's own position, so testing existence is
equivalent. -/
def updateMovingBubble (W H : ℝ) (δ : ℝ) (orc : ℕ) (s : GameState) :
    GameState :=
  match s.movingBubble with
  | none => s
  | some mb =>
    let x1 := mb.x + mb.dx * δ
    let y1 := mb.y + mb.dy * δ
    let x2 := if x1 ≤ BUBBLE_RADIUS ∨ x1 ≥ W - BUBBLE_RADIUS then
        clamp x1 BUBBLE_RADIUS (W - BUBBLE_RADIUS) else x1
    let dx2 := if x1 ≤ BUBBLE_RADIUS ∨ x1 ≥ W - BUBBLE_RADIUS then -mb.dx
        else mb.dx
    let mb' : Moving := { mb with x := x2, y := y1, dx := dx2 }
    let s' := { s with movingBubble := some mb' }
    if y1 ≤ TOP_MARGIN + BUBBLE_RADIUS then snapMovingBubble W H orc s' mb'
    else if ∃ b ∈ gridBubbles s.grid,
        distance b.x b.y mb'.x mb'.y ≤ BUBBLE_DIAMETER - 2 then
      snapMovingBubble W H orc s' mb'
    else if y1 > H - BUBBLE_RADIUS then
      { s' with gameOver := true, message := LOSS_MSG }
    else s'

/-- `handlePointer(delta)`: arrow-key rotation, clamped into
`[POINTER_MIN, POINTER_MAX]`. -/
def handlePointer (δ : ℝ) (s : GameState) : GameState :=
  let a1 := if s.keyLeft then
      min (s.pointerAngle + 220 * (Real.pi / 180) * δ) POINTER_MAX
    else s.pointerAngle
  let a2 := if s.keyRight then
      max (a1 - 220 * (Real.pi / 180) * δ) POINTER_MIN
    else a1
  { s with pointerAngle := a2 }

/-- `update(delta)`. -/
def update (W H δ : ℝ) (orc : ℕ) (s : GameState) : GameState :=
  updateMovingBubble W H δ orc (handlePointer δ s)

/-- `launchBubble()`: no-op when the game is over, a projectile is in
flight, or there is no loaded bubble. -/
def launchBubble (s : GameState) : GameState :=
  if s.gameOver then s
  else if s.movingBubble.isSome then s
  else
    match s.currentBubble with
    | none => s
    | some cb =>
      { s with
        movingBubble := some ⟨cb.x, cb.y, cb.color,
          Real.cos s.pointerAngle * LAUNCH_SPEED,
          -Real.sin s.pointerAngle * LAUNCH_SPEED⟩,
        currentBubble := some { cb with active := true } }

/-- The random draws consumed by `init`: a color index per initial cell
and the two shooter color indices. -/
structure InitOracle where
  cell : ℕ → ℕ → ℕ
  cur : ℕ
  nxt : ℕ

/-- `createInitialGrid()`: rows 0..7, odd rows one cell short, random
palette colors. -/
def createInitialGrid (W : ℝ) (o : InitOracle) : Grid :=
  (List.range 8).map fun (r : ℕ) =>
    (List.range 14).map fun (c : ℕ) =>
      if c < 14 - (if r % 2 = 0 then 0 else 1) then
        some (makeGridBubble W (r : ℤ) (c : ℤ) (COLORS.getD (o.cell r c % 6) ""))
      else none

/-- `init()`: fresh grid, angle `π/2`, two loaded shooter bubbles, score 0,
not game over. -/
def init (W H : ℝ) (o : InitOracle) : GameState :=
  { grid := createInitialGrid W o,
    pointerAngle := Real.pi / 2,
    currentBubble := some (createShooterBubble W H (createInitialGrid W o) o.cur),
    nextBubble := some (createShooterBubble W H (createInitialGrid W o) o.nxt),
    movingBubble := none,
    keyLeft := false, keyRight := false,
    lastTime := 0, score := 0, gameOver := false, message := "" }

/-- The external events.  Pointer/touch events carry the aim angle
`atan2(SHOOTER_Y - y, x - CANVAS_WIDTH/2)` computed from the pointer
position; frame and key-down events carry the random draws they may
consume. -/
inductive Event where
  | frame (t : ℝ) (orc : ℕ)
  | keyDown (key : String) (rep : Bool) (o : InitOracle)
  | keyUp (key : String)
  | pointerMove (angle : ℝ)
  | pointerDown
  | touchStart (angle : ℝ)
  | touchMove (angle : ℝ)

/-- One serialized event dispatch: `loop` (with `gameOver` short-circuit
and `lastTime` bookkeeping), `handleKeyDown`/`handleKeyUp`,
`handlePointerMove`, `handlePointerDown` and the touch handlers. -/
def step (W H : ℝ) (e : Event) (s : GameState) : GameState :=
  match e with
  | .frame t orc =>
    if s.gameOver then s
    else update W H ((t - s.lastTime) / 1000) orc { s with lastTime := t }
  | .keyDown key rep o =>
    if rep then s
    else
      let s1 := if key = "ArrowLeft" then { s with keyLeft := true } else s
      let s2 := if key = "ArrowRight" then { s1 with keyRight := true } else s1
      let s3 := if key = " " ∨ key = "Spacebar" then launchBubble s2 else s2
      if key = "Enter" ∧ s3.gameOver then init W H o else s3
  | .keyUp key =>
    let s1 := if key = "ArrowLeft" then { s with keyLeft := false } else s
    if key = "ArrowRight" then { s1 with keyRight := false } else s1
  | .pointerMove angle =>
    { s with pointerAngle := clamp angle POINTER_MIN POINTER_MAX }
  | .pointerDown => launchBubble s
  | .touchStart angle =>
    launchBubble { s with pointerAngle := clamp angle POINTER_MIN POINTER_MAX }
  | .touchMove angle =>
    { s with pointerAngle := clamp angle POINTER_MIN POINTER_MAX }

end

/-- A reset: a non-repeat `Enter` keydown (which re-runs `init` when the
game is over). -/
def Event.isReset : Event → Prop
  | .keyDown key rep _ => key = "Enter" ∧ rep = false
  | _ => False

/-! ### Small facts about the handlers -/

lemma snapMovingBubble_pointerAngle (W H : ℝ) (orc : ℕ) (s : GameState)
    (mb : Moving) :
    (snapMovingBubble W H orc s mb).pointerAngle = s.pointerAngle := rfl

lemma updateMovingBubble_pointerAngle (W H δ : ℝ) (orc : ℕ) (s : GameState) :
    (updateMovingBubble W H δ orc s).pointerAngle = s.pointerAngle := by
  unfold updateMovingBubble
  split
  · rfl
  · dsimp only
    repeat' split
    all_goals first
      | rw [snapMovingBubble_pointerAngle]
      | rfl

lemma launchBubble_gameOver_eq (s : GameState) (h : s.gameOver = true) :
    launchBubble s = s := by
  unfold launchBubble
  rw [if_pos h]

lemma launchBubble_pointerAngle (s : GameState) :
    (launchBubble s).pointerAngle = s.pointerAngle := by
  unfold launchBubble
  split
  · rfl
  · split
    · rfl
    · split <;> rfl

/-- Folding the two arrow-key flag updates of `handleKeyDown` into one
record update. -/
lemma arrowFlags_eq (s : GameState) (key : String) :
    (if key = "ArrowRight" then
       { (if key = "ArrowLeft" then { s with keyLeft := true } else s) with
         keyRight := true }
     else if key = "ArrowLeft" then { s with keyLeft := true } else s) =
    { s with keyLeft := if key = "ArrowLeft" then true else s.keyLeft,
             keyRight := if key = "ArrowRight" then true else s.keyRight } := by
  by_cases hL : key = "ArrowLeft" <;> by_cases hR : key = "ArrowRight" <;>
    simp [hL, hR]

lemma launch_opt_eq (c : Prop) [Decidable c] (S : GameState)
    (h : S.gameOver = true) :
    (if c then launchBubble S else S) = S := by
  split
  · exact launchBubble_gameOver_eq S h
  · rfl

/-! ### C2 — projectile overflow threshold -/

/-- A projectile between the shooter line and the bottom threshold
(`y = 590`, one 1-second step at `dy = 10` lands at `600`). -/
noncomputable def c2mb : Moving := ⟨240, 590, "#ff6b6b", 0, 10⟩

/-- In-flight state over an empty grid, game not over. -/
noncomputable def c2state : GameState :=
  { grid := [], pointerAngle := 0, currentBubble := none, nextBubble := none,
    movingBubble := some c2mb, keyLeft := false, keyRight := false,
    lastTime := 0, score := 0, gameOver := false, message := "" }

/-- C2 counterexample (canvas 480×640, `SHOOTER_Y = 570`): after the frame
update the projectile sits at `y = 600 > SHOOTER_Y` with no collision and
no top-margin landing, yet the update does **not** end the game — the
code's loss threshold is `CANVAS_HEIGHT - BUBBLE_RADIUS = 624`, not
`SHOOTER_Y`. -/
theorem C2_overflow_counterexample :
    c2mb.y + c2mb.dy * 1 > SHOOTER_Y 640 ∧
    ¬ (c2mb.y + c2mb.dy * 1 ≤ TOP_MARGIN + BUBBLE_RADIUS) ∧
    gridBubbles c2state.grid = [] ∧
    (updateMovingBubble 480 640 1 0 c2state).gameOver = false := by
  refine ⟨?_, ?_, rfl, ?_⟩
  · unfold c2mb SHOOTER_Y
    norm_num
  · unfold c2mb TOP_MARGIN BUBBLE_RADIUS
    norm_num
  · unfold updateMovingBubble
    rw [show c2state.movingBubble = some c2mb from rfl]
    dsimp only
    split_ifs <;>
      first
        | rfl
        | (exfalso; norm_num [c2state, c2mb, gridBubbles, TOP_MARGIN,
            BUBBLE_RADIUS] at *)

/-- **C2 (amended).** The loss fires when the projectile's updated `y`
exceeds `CANVAS_HEIGHT - BUBBLE_RADIUS` (54 px below `SHOOTER_Y`), with no
top-margin landing and no collision in that frame; it then sets `gameOver`
with the loss message, and later frames change nothing (exactly once). -/
theorem C2_overflow_corrected (W H δ : ℝ) (orc : ℕ) (s : GameState)
    (mb : Moving) (hmb : s.movingBubble = some mb)
    (htop : ¬ (mb.y + mb.dy * δ ≤ TOP_MARGIN + BUBBLE_RADIUS))
    (hcol : ¬ ∃ b ∈ gridBubbles s.grid,
        distance b.x b.y
          (if mb.x + mb.dx * δ ≤ BUBBLE_RADIUS ∨
              mb.x + mb.dx * δ ≥ W - BUBBLE_RADIUS then
            clamp (mb.x + mb.dx * δ) BUBBLE_RADIUS (W - BUBBLE_RADIUS)
          else mb.x + mb.dx * δ)
          (mb.y + mb.dy * δ) ≤ BUBBLE_DIAMETER - 2)
    (hbot : mb.y + mb.dy * δ > H - BUBBLE_RADIUS) :
    (updateMovingBubble W H δ orc s).gameOver = true ∧
    (updateMovingBubble W H δ orc s).message = LOSS_MSG ∧
    ∀ (t : ℝ) (orc2 : ℕ),
      step W H (.frame t orc2) (updateMovingBubble W H δ orc s) =
        updateMovingBubble W H δ orc s := by
  have key : (updateMovingBubble W H δ orc s).gameOver = true ∧
      (updateMovingBubble W H δ orc s).message = LOSS_MSG := by
    unfold updateMovingBubble
    rw [hmb]
    dsimp only
    rw [if_neg htop, if_neg hcol, if_pos hbot]
    exact ⟨rfl, rfl⟩
  refine ⟨key.1, key.2, fun t orc2 => ?_⟩
  unfold step
  dsimp only
  rw [if_pos key.1]

/-- Witness projectile: lands at `y = 630 > 624`. -/
noncomputable def c2wmb : Moving := ⟨240, 620, "#ff6b6b", 0, 10⟩

/-- Witness state for the amended C2. -/
noncomputable def c2wstate : GameState :=
  { grid := [], pointerAngle := 0, currentBubble := none, nextBubble := none,
    movingBubble := some c2wmb, keyLeft := false, keyRight := false,
    lastTime := 0, score := 0, gameOver := false, message := "" }

/-- C2 witness: the amended theorem at the concrete overflow state. -/
theorem C2_overflow_corrected_witness :
    (updateMovingBubble 480 640 1 0 c2wstate).gameOver = true ∧
    (updateMovingBubble 480 640 1 0 c2wstate).message = LOSS_MSG := by
  have h := C2_overflow_corrected 480 640 1 0 c2wstate c2wmb rfl
    (by unfold c2wmb TOP_MARGIN BUBBLE_RADIUS; norm_num)
    (by simp [c2wstate, gridBubbles])
    (by unfold c2wmb BUBBLE_RADIUS; norm_num)
  exact ⟨h.1, h.2.1⟩

/-! ### C8 — aim-angle clamp invariant -/

/-- The aim-angle invariant: within `[POINTER_MIN, POINTER_MAX]`
(20° to 160°). -/
def angleOK (θ : ℝ) : Prop := POINTER_MIN ≤ θ ∧ θ ≤ POINTER_MAX

lemma POINTER_MIN_le_MAX : POINTER_MIN ≤ POINTER_MAX := by
  unfold POINTER_MIN POINTER_MAX
  nlinarith [Real.pi_pos]

lemma angleOK_pi_div_two : angleOK (Real.pi / 2) := by
  unfold angleOK POINTER_MIN POINTER_MAX
  constructor <;> nlinarith [Real.pi_pos]

lemma angleOK_clamp (a : ℝ) : angleOK (clamp a POINTER_MIN POINTER_MAX) := by
  unfold clamp angleOK
  exact ⟨le_max_left _ _, max_le POINTER_MIN_le_MAX (min_le_right _ _)⟩

/-- The two sequential arrow-key rotations keep a clamped angle clamped,
for any nonnegative rotation amount. -/
lemma angle_after_keys (θ c : ℝ) (kl kr : Bool) (hc : 0 ≤ c)
    (h1 : POINTER_MIN ≤ θ) (h2 : θ ≤ POINTER_MAX) :
    angleOK (if kr then
        max ((if kl then min (θ + c) POINTER_MAX else θ) - c) POINTER_MIN
      else if kl then min (θ + c) POINTER_MAX else θ) := by
  have hMM := POINTER_MIN_le_MAX
  unfold angleOK
  cases kl <;> cases kr <;> simp only [Bool.false_eq_true, if_false, if_true]
  · exact ⟨h1, h2⟩
  · exact ⟨le_max_right _ _, max_le (by linarith) hMM⟩
  · exact ⟨le_min (by linarith) hMM, min_le_right _ _⟩
  · refine ⟨le_max_right _ _, max_le ?_ hMM⟩
    have := min_le_right (θ + c) POINTER_MAX
    linarith

lemma angle_ite (c : Prop) [Decidable c] (a b : GameState)
    (ha : angleOK a.pointerAngle) (hb : angleOK b.pointerAngle) :
    angleOK ((if c then a else b).pointerAngle) := by
  split
  · exact ha
  · exact hb

lemma handlePointer_angleOK (δ : ℝ) (hδ : 0 ≤ δ) (s : GameState)
    (h : angleOK s.pointerAngle) :
    angleOK (handlePointer δ s).pointerAngle := by
  have hc : (0 : ℝ) ≤ 220 * (Real.pi / 180) * δ := by positivity
  unfold handlePointer
  dsimp only
  exact angle_after_keys s.pointerAngle _ s.keyLeft s.keyRight hc h.1 h.2

/-- **C8.** The aim angle starts at 90° (`init`) and every event keeps it
inside `[POINTER_MIN, POINTER_MAX]`: arrow-key rotation over any
nonnegative elapsed time, pointer moves and touches at any position,
launches, landings and resets. -/
theorem C8_pointerAngle_clamped (W H : ℝ) (e : Event) (s : GameState)
    (o : InitOracle) (h : angleOK s.pointerAngle)
    (ht : ∀ (t : ℝ) (orc : ℕ), e = .frame t orc → s.lastTime ≤ t) :
    angleOK (step W H e s).pointerAngle ∧
    (init W H o).pointerAngle = Real.pi / 2 ∧ angleOK (Real.pi / 2) := by
  refine ⟨?_, rfl, angleOK_pi_div_two⟩
  cases e with
  | frame t orc =>
    unfold step
    dsimp only
    by_cases hgo : s.gameOver
    · rw [if_pos hgo]
      exact h
    · rw [if_neg hgo]
      unfold update
      rw [updateMovingBubble_pointerAngle]
      have hδ : 0 ≤ (t - s.lastTime) / 1000 := by
        have := ht t orc rfl
        have h1000 : (0 : ℝ) < 1000 := by norm_num
        exact div_nonneg (by linarith) (by norm_num)
      exact handlePointer_angleOK _ hδ _ h
  | keyDown key rep o2 =>
    unfold step
    dsimp only
    cases rep with
    | true =>
      rw [if_pos rfl]
      exact h
    | false =>
      rw [if_neg (by simp)]
      rw [arrowFlags_eq]
      refine angle_ite _ _ _ angleOK_pi_div_two (angle_ite _ _ _ ?_ ?_)
      · rw [launchBubble_pointerAngle]
        exact h
      · exact h
  | keyUp key =>
    unfold step
    dsimp only
    split <;> (try split) <;> exact h
  | pointerMove angle => exact angleOK_clamp angle
  | pointerDown =>
    unfold step
    rw [launchBubble_pointerAngle]
    exact h
  | touchStart angle =>
    unfold step
    rw [launchBubble_pointerAngle]
    exact angleOK_clamp angle
  | touchMove angle => exact angleOK_clamp angle

/-- A quiet mid-game state with the initial aim angle. -/
noncomputable def s8 : GameState :=
  { grid := [], pointerAngle := Real.pi / 2, currentBubble := none,
    nextBubble := none, movingBubble := none, keyLeft := false,
    keyRight := false, lastTime := 0, score := 0, gameOver := false,
    message := "" }

/-- C8 witness: a pointer move to angle 0 still yields a clamped angle. -/
theorem C8_pointerAngle_clamped_witness :
    angleOK (step 480 640 (Event.pointerMove 0) s8).pointerAngle ∧
    (init 480 640 ⟨fun _ _ => 0, 0, 0⟩).pointerAngle = Real.pi / 2 ∧
    angleOK (Real.pi / 2) :=
  C8_pointerAngle_clamped 480 640 (Event.pointerMove 0) s8
    ⟨fun _ _ => 0, 0, 0⟩ angleOK_pi_div_two
    (fun t orc hcontra => Event.noConfusion hcontra)

/-! ### C9 — `gameOver` is terminal -/

/-- **C9.** Once `gameOver` holds, every event other than the explicit
Enter-reset leaves `gameOver` set and the grid, score and projectile
untouched: the frame loop short-circuits and launching is a no-op. -/
theorem C9_gameOver_terminal (W H : ℝ) (e : Event) (s : GameState)
    (hgo : s.gameOver = true) (hne : ¬ e.isReset) :
    (step W H e s).gameOver = true ∧ (step W H e s).grid = s.grid ∧
    (step W H e s).score = s.score ∧
    (step W H e s).movingBubble = s.movingBubble := by
  cases e with
  | frame t orc =>
    unfold step
    dsimp only
    rw [if_pos hgo]
    exact ⟨hgo, rfl, rfl, rfl⟩
  | keyDown key rep o =>
    unfold step
    dsimp only
    cases rep with
    | true =>
      rw [if_pos rfl]
      exact ⟨hgo, rfl, rfl, rfl⟩
    | false =>
      have hkey : ¬ (key = "Enter") := fun hk => hne ⟨hk, rfl⟩
      rw [if_neg (by simp)]
      rw [arrowFlags_eq]
      have hgo2 : ({ s with
          keyLeft := if key = "ArrowLeft" then true else s.keyLeft,
          keyRight := if key = "ArrowRight" then true else s.keyRight } :
            GameState).gameOver = true := hgo
      rw [launch_opt_eq _ _ hgo2]
      rw [if_neg (fun hc => hkey hc.1)]
      exact ⟨hgo, rfl, rfl, rfl⟩
  | keyUp key =>
    refine ⟨?_, ?_, ?_, ?_⟩ <;>
      · unfold step
        dsimp only
        split <;> (try split) <;> first | exact hgo | rfl
  | pointerMove angle => exact ⟨hgo, rfl, rfl, rfl⟩
  | pointerDown =>
    unfold step
    dsimp only
    rw [launchBubble_gameOver_eq s hgo]
    exact ⟨hgo, rfl, rfl, rfl⟩
  | touchStart angle =>
    unfold step
    dsimp only
    have hgo2 : ({ s with
        pointerAngle := clamp angle POINTER_MIN POINTER_MAX } :
          GameState).gameOver = true := hgo
    rw [launchBubble_gameOver_eq _ hgo2]
    exact ⟨hgo, rfl, rfl, rfl⟩
  | touchMove angle => exact ⟨hgo, rfl, rfl, rfl⟩

/-- A finished (lost) state. -/
noncomputable def s9 : GameState :=
  { grid := [], pointerAngle := 0, currentBubble := none, nextBubble := none,
    movingBubble := none, keyLeft := false, keyRight := false, lastTime := 0,
    score := 0, gameOver := true, message := LOSS_MSG }

/-- C9 witness: a pointer move on a finished game changes none of the
protected fields. -/
theorem C9_gameOver_terminal_witness :
    (step 480 640 (Event.pointerMove 0) s9).gameOver = true ∧
    (step 480 640 (Event.pointerMove 0) s9).grid = s9.grid ∧
    (step 480 640 (Event.pointerMove 0) s9).score = s9.score ∧
    (step 480 640 (Event.pointerMove 0) s9).movingBubble = s9.movingBubble :=
  C9_gameOver_terminal 480 640 (Event.pointerMove 0) s9 rfl (fun h => h)

end Chung
